import Mathlib

/-!
Verification of the dummy metric collector (src/dummy_collector.py).

The development is a shallow embedding of the collector: JSON values are an
inductive type, Python dicts become association lists preserving insertion
order (with overwrite-in-place assignment semantics), floats become exact
rationals, and the fallible parts return Option / Except.  Filesystem and
process effects are made explicit: file discovery is passed in as data and
the program's observable outcome (exit code, whether the output directory
and cli.txt were produced, and the contents of metrics.json) is returned as
a record.
-/

namespace DummyCollector

/-- A JSON value, as produced by json.load.  Python ints and floats are both
modelled as exact rationals. -/
inductive JsonVal where
  | null
  | bool (b : Bool)
  | num (q : ℚ)
  | str (s : String)
  | arr (xs : List JsonVal)
  | obj (kvs : List (String × JsonVal))

/-- First-match lookup in an association list; models Python dict lookup
(dict keys are unique, so first match is the match). -/
def jlookup {α : Type} : List (String × α) → String → Option α
  | [], _ => none
  | kv :: rest, k => if kv.1 = k then some kv.2 else jlookup rest k

/-- Does the association list hold the key? Models the Python `in` test on
a dict. -/
def hasKey {α : Type} (d : List (String × α)) (k : String) : Bool :=
  d.any (fun kv => kv.1 == k)

/-- Python dict assignment d[k] = v: overwrite in place when the key exists
(keeping its original position), append otherwise. -/
def dictSet {α : Type} (d : List (String × α)) (k : String) (v : α) :
    List (String × α) :=
  if hasKey d k then d.map (fun kv => if kv.1 = k then (k, v) else kv)
  else d ++ [(k, v)]

/-- Python d.setdefault(k, []).append(v) as used by the argument grouping
loop: append v to the list stored at k, creating the entry if absent. -/
def dictAppend (d : List (String × List String)) (k : String) (v : String) :
    List (String × List String) :=
  if hasKey d k then d.map (fun kv => if kv.1 = k then (kv.1, kv.2 ++ [v]) else kv)
  else d ++ [(k, [v])]

/-- What load_result_from_file can see of one discovered file: either the
open/json.load step fails (unreadable or malformed contents), or it yields
a JSON object.  A top-level non-object JSON value always degrades to the
"NA" sentinel in the source (membership tests on it either fail or raise,
and every exception is caught), so the model folds that case into
`unreadable`, which produces the same sentinel. -/
inductive FileData where
  | unreadable
  | obj (kvs : List (String × JsonVal))

/-- The source's test `"error" in data and data["error"] is not None`. -/
def errNonNull (data : List (String × JsonVal)) : Bool :=
  match jlookup data "error" with
  | some JsonVal.null => false
  | some _ => true
  | none => false

/-- load_result_from_file: return the metric field's raw value, or the
string "NA" when the file is unreadable, carries a non-null top-level
"error" field, or lacks the metric key.  (The debug printing of the source
is pure logging and is not modelled.) -/
def load_result_from_file (d : FileData) (metric_key : String) : JsonVal :=
  match d with
  | .unreadable => .str "NA"
  | .obj data =>
    if errNonNull data then .str "NA"
    else
      match jlookup data metric_key with
      | some v => v
      | none => .str "NA"

/-- Value of a list of decimal digit characters. -/
def digitsToNat (cs : List Char) : Nat :=
  cs.foldl (fun n c => n * 10 + (c.toNat - Char.toNat '0')) 0

/-- Signed decimal exponent after the e/E of a float literal. -/
def parseExpInt (cs : List Char) : Option Int :=
  match cs with
  | '-' :: r => if r ≠ [] ∧ r.all Char.isDigit then some (-(digitsToNat r : Int)) else none
  | '+' :: r => if r ≠ [] ∧ r.all Char.isDigit then some (digitsToNat r : Int) else none
  | r => if r ≠ [] ∧ r.all Char.isDigit then some (digitsToNat r : Int) else none

/-- Unsigned part of a Python float literal: digits, optional fraction,
optional exponent; at least one mantissa digit. -/
def parseUnsigned (cs : List Char) : Option ℚ :=
  let ip := cs.takeWhile Char.isDigit
  let rest1 := cs.drop ip.length
  let fp :=
    match rest1 with
    | '.' :: r => r.takeWhile Char.isDigit
    | _ => []
  let rest2 :=
    match rest1 with
    | '.' :: r => r.drop fp.length
    | _ => rest1
  if ip = [] ∧ fp = [] then none
  else
    let mant : ℚ := (digitsToNat ip : ℚ) + (digitsToNat fp : ℚ) / (10 ^ fp.length : ℚ)
    match rest2 with
    | [] => some mant
    | 'e' :: r => (parseExpInt r).map (fun e => mant * (10 : ℚ) ^ e)
    | 'E' :: r => (parseExpInt r).map (fun e => mant * (10 : ℚ) ^ e)
    | _ => none

/-- Leading and trailing whitespace removal, as float() applies to its
string argument. -/
def stripWs (cs : List Char) : List Char :=
  ((cs.dropWhile Char.isWhitespace).reverse.dropWhile Char.isWhitespace).reverse

/-- The numeric strings accepted by Python's float(): surrounding
whitespace stripped, optional sign, decimal mantissa, optional exponent.
(Python additionally accepts inf/nan spellings and underscore digit
separators; no claim exercises those forms, and no input of this
development reaches them.) -/
def parseNumString (s : String) : Option ℚ :=
  match stripWs s.data with
  | '-' :: r => (parseUnsigned r).map (fun q => -q)
  | '+' :: r => parseUnsigned r
  | r => parseUnsigned r

/-- Python float(value) on a JSON value: numbers convert to themselves,
booleans to 0/1, numeric strings parse; None, lists and objects raise
TypeError, modelled as none. -/
def pyFloat : JsonVal → Option ℚ
  | .num q => some q
  | .bool b => some (if b then 1 else 0)
  | .str s => parseNumString s
  | _ => none

/-- Python `value == "NA"` for a JSON value: a number, boolean, None, list
or dict never equals a string, so only the exact string matches. -/
def isNA : JsonVal → Bool
  | .str s => s == "NA"
  | _ => false

/-- One iteration of the main extraction loop over a discovered file
(path, contents): the optional contribution to the values list, and the
file_info detail entry. -/
def processFile (metric_key : String) (pf : String × FileData) :
    Option ℚ × JsonVal :=
  let value := load_result_from_file pf.2 metric_key
  if isNA value then
    (none, JsonVal.obj [("file", .str pf.1), ("value", .str "NA")])
  else
    match pyFloat value with
    | some q => (some q, JsonVal.obj [("file", .str pf.1), ("value", .num q)])
    | none =>
      (none, JsonVal.obj [("file", .str pf.1), ("value", .str "NA"),
                          ("error", .str "non-numeric")])

/-- The values list built by the main loop (the loop fills values and
file_info in one pass; the two projections are split here, which computes
the same lists). -/
def extractValues (metric_key : String) (files : List (String × FileData)) :
    List ℚ :=
  files.filterMap (fun f => (processFile metric_key f).1)

/-- The file_info detail list built by the main loop. -/
def fileDetails (metric_key : String) (files : List (String × FileData)) :
    List JsonVal :=
  files.map (fun f => (processFile metric_key f).2)

/-- Python sum(values): left fold from 0. -/
def pysum (l : List ℚ) : ℚ := l.foldl (· + ·) 0

/-- statistics.mean: the exact arithmetic mean (statistics.mean computes
exactly on floats via Fraction; over ℚ that is just sum over length).
Only called on a non-empty list. -/
def pymean (l : List ℚ) : ℚ := l.sum / (l.length : ℚ)

/-- Python max(values); the source only calls it on a non-empty list, the
0 for [] is an unreachable default. -/
def pymax : List ℚ → ℚ
  | [] => 0
  | h :: t => t.foldl max h

/-- Python min(values); same remark as pymax. -/
def pymin : List ℚ → ℚ
  | [] => 0
  | h :: t => t.foldl min h

/-- aggregate_results: statistics of the valid values under the selected
aggregation mode, as the ordered key/value mapping the source builds. -/
def aggregate_results (values : List ℚ) (aggregation : String) :
    List (String × JsonVal) :=
  if values = [] then [("error", .str "No valid values found")]
  else
    (if aggregation = "all" ∨ aggregation = "avg" then
      [("avg", JsonVal.num (pymean values))] else [])
    ++ (if aggregation = "all" ∨ aggregation = "max" then
      [("max", JsonVal.num (pymax values))] else [])
    ++ (if aggregation = "all" ∨ aggregation = "min" then
      [("min", JsonVal.num (pymin values))] else [])
    ++ (if aggregation = "all" ∨ aggregation = "sum" then
      [("sum", JsonVal.num (pysum values))] else [])
    ++ [("count", JsonVal.num (values.length : ℚ)),
        ("values", JsonVal.arr (values.map JsonVal.num))]

/-- The four keys the prefixing step leaves untouched. -/
def exemptKeys : List String :=
  ["files_details", "input_pattern", "metric_key", "aggregation_type"]

/-- Key renaming of the prefixing step (source writes f-string
prefix_key). -/
def renameKey (pfx k : String) : String :=
  if k ∈ exemptKeys then k else pfx ++ "_" ++ k

/-- The prefixing step of main: when a prefix is configured (non-empty
string, Python truthiness), rebuild the result dict renaming every
non-exempt key. -/
def applyPfx (pfx : String) (result : List (String × JsonVal)) :
    List (String × JsonVal) :=
  if pfx = "" then result
  else result.foldl (fun acc kv => dictSet acc (renameKey pfx kv.1) kv.2) []

/-- Python arg.startswith two dashes. -/
def startsWithDashDash (s : String) : Bool :=
  match s.data with
  | '-' :: '-' :: _ => true
  | _ => false

/-- One step of the grouping loop of parse_dynamic_args: a new flag token
resets that flag's value list (grouped_args[current_flag] = []) and becomes
the current flag; any other token is appended to the current flag's list,
or to the synthetic positional group when no flag was seen yet. -/
def pdaStep (st : List (String × List String) × Option String) (arg : String) :
    List (String × List String) × Option String :=
  if startsWithDashDash arg then (dictSet st.1 arg [], some arg)
  else
    match st.2 with
    | some f => (dictAppend st.1 f arg, st.2)
    | none => (dictAppend st.1 "__positional__" arg, none)

/-- parse_dynamic_args: group the argument vector into an insertion-ordered
mapping from flag token to its value list. -/
def parse_dynamic_args (argv : List String) : List (String × List String) :=
  (argv.foldl pdaStep ([], none)).1

/-- The resolved configuration (the argparse.Namespace the source fills),
with the source's defaults.  The source field named like the key-prefix
concept is called pfx here. -/
structure Args where
  input_pattern : String := "**/*_data.json"
  output_dir : Option String := none
  metric_key : String := "result"
  aggregation : String := "all"
  debug : Bool := false
  pfx : String := ""
  collector : Option String := none
  extra : List String := []
  name : Option String := none
  dynamic_args : List (String × List String) := []
deriving DecidableEq

/-- Handling of one grouped flag in parse_args.  The source also computes
flag_name (dashes stripped, hyphens to underscores) at the top of this
loop but never uses it: unknown flags are stored under the raw flag token.
Recognized flags match the flag token exactly, so the underscore spelling
of a hyphenated known flag falls into the catch-all mapping. -/
def paStep (a : Args) (kv : String × List String) : Args :=
  let flag := kv.1
  let values := kv.2
  if flag = "--input-pattern" then
    { a with input_pattern := values.headD a.input_pattern }
  else if flag = "--output_dir" then
    { a with output_dir := values.head? }
  else if flag = "--metric-key" then
    { a with metric_key := values.headD a.metric_key }
  else if flag = "--aggregation" then
    match values with
    | v :: _ =>
      if v ∈ ["avg", "max", "min", "sum", "all"] then { a with aggregation := v }
      else a
    | [] => a
  else if flag = "--debug" then
    { a with debug := true }
  else if flag = "--prefix" then
    { a with pfx := values.headD "" }
  else if flag = "--collector" then
    { a with collector := values.head? }
  else if flag = "--extra" then
    { a with extra := a.extra ++ values }
  else if flag = "--name" then
    { a with name := values.head? }
  else
    { a with dynamic_args := dictSet a.dynamic_args flag values }

/-- parse_args: group the raw arguments, fold them into the defaults, then
fail (raise SystemExit, exit status 1) when the output directory is falsy
(unset or the empty string). -/
def parse_args (argv : List String) : Except String Args :=
  let grouped := parse_dynamic_args argv
  let a := grouped.foldl paStep {}
  if a.output_dir = none ∨ a.output_dir = some "" then
    .error "Error: --output_dir is required"
  else .ok a

/-- The part of main after discovery: exit code and the mapping written to
metrics.json, given the configuration, the current working directory and
the discovered files (path with readable contents). -/
def runMain (a : Args) (cwd : String) (files : List (String × FileData)) :
    Nat × List (String × JsonVal) :=
  if files.isEmpty then
    (1, [("error", .str ("No data files found with pattern: " ++ a.input_pattern)),
         ("pattern_used", .str a.input_pattern),
         ("search_directory", .str cwd)])
  else
    let values := extractValues a.metric_key files
    let details := fileDetails a.metric_key files
    let aggregated := aggregate_results values a.aggregation
    let result :=
      [("aggregation_type", JsonVal.str a.aggregation),
       ("metric_key", JsonVal.str a.metric_key),
       ("input_pattern", JsonVal.str a.input_pattern),
       ("files_processed", JsonVal.num (details.length : ℚ)),
       ("files_details", JsonVal.arr details)]
      ++ aggregated
    (0, applyPfx a.pfx result)

/-- Observable outcome of one invocation: process exit code, whether the
output directory was created, whether cli.txt was written, and the mapping
written to metrics.json (none when it was not written). -/
structure RunOutcome where
  exitCode : Nat
  dirCreated : Bool
  cliWritten : Bool
  metrics : Option (List (String × JsonVal))

/-- The whole program: parse (a SystemExit there exits with status 1
before any side effect), then create the output directory, write cli.txt,
discover files for the configured pattern and run the main logic.  File
discovery is abstracted as a function from the glob pattern to the
discovered (path, contents) list. -/
def runProgram (argv : List String) (fs : String → List (String × FileData))
    (cwd : String) : RunOutcome :=
  match parse_args argv with
  | .error _ => ⟨1, false, false, none⟩
  | .ok a =>
    let r := runMain a cwd (fs a.input_pattern)
    ⟨r.1, true, true, some r.2⟩

/-- The extra field of a successful parse. -/
def parsedExtra (argv : List String) : Option (List String) :=
  match parse_args argv with
  | .ok a => some a.extra
  | .error _ => none

/-- The dynamic_args mapping of a successful parse. -/
def parsedDynamic (argv : List String) : Option (List (String × List String)) :=
  match parse_args argv with
  | .ok a => some a.dynamic_args
  | .error _ => none

/-! ### Helper lemmas -/

theorem errNonNull_true (kvs : List (String × JsonVal)) (v : JsonVal)
    (hv : jlookup kvs "error" = some v) (hnn : v ≠ JsonVal.null) :
    errNonNull kvs = true := by
  unfold errNonNull
  rw [hv]
  cases v <;> simp_all

theorem errNonNull_false (kvs : List (String × JsonVal))
    (herr : jlookup kvs "error" = none ∨ jlookup kvs "error" = some JsonVal.null) :
    errNonNull kvs = false := by
  unfold errNonNull
  rcases herr with h | h <;> rw [h]

theorem pysum_eq_sum (l : List ℚ) : pysum l = l.sum :=
  List.sum_eq_foldl.symm

theorem foldl_max_eq_or_mem (l : List ℚ) (a : ℚ) :
    l.foldl max a = a ∨ l.foldl max a ∈ l := by
  induction l generalizing a with
  | nil => exact Or.inl rfl
  | cons b t ih =>
    rw [List.foldl_cons]
    rcases ih (max a b) with h | h
    · rcases max_cases a b with ⟨h1, _⟩ | ⟨h1, _⟩
      · exact Or.inl (by rw [h, h1])
      · exact Or.inr (by rw [h, h1]; exact List.mem_cons_self b t)
    · exact Or.inr (List.mem_cons_of_mem b h)

theorem foldl_max_bounds (l : List ℚ) (a : ℚ) :
    a ≤ l.foldl max a ∧ ∀ x ∈ l, x ≤ l.foldl max a := by
  induction l generalizing a with
  | nil => exact ⟨le_refl a, by simp⟩
  | cons b t ih =>
    obtain ⟨h1, h2⟩ := ih (max a b)
    rw [List.foldl_cons]
    refine ⟨le_trans (le_max_left a b) h1, ?_⟩
    intro x hx
    rcases List.mem_cons.mp hx with rfl | hx
    · exact le_trans (le_max_right a x) h1
    · exact h2 x hx

theorem foldl_min_eq_or_mem (l : List ℚ) (a : ℚ) :
    l.foldl min a = a ∨ l.foldl min a ∈ l := by
  induction l generalizing a with
  | nil => exact Or.inl rfl
  | cons b t ih =>
    rw [List.foldl_cons]
    rcases ih (min a b) with h | h
    · rcases min_cases a b with ⟨h1, _⟩ | ⟨h1, _⟩
      · exact Or.inl (by rw [h, h1])
      · exact Or.inr (by rw [h, h1]; exact List.mem_cons_self b t)
    · exact Or.inr (List.mem_cons_of_mem b h)

theorem foldl_min_bounds (l : List ℚ) (a : ℚ) :
    l.foldl min a ≤ a ∧ ∀ x ∈ l, l.foldl min a ≤ x := by
  induction l generalizing a with
  | nil => exact ⟨le_refl a, by simp⟩
  | cons b t ih =>
    obtain ⟨h1, h2⟩ := ih (min a b)
    rw [List.foldl_cons]
    refine ⟨le_trans h1 (min_le_left a b), ?_⟩
    intro x hx
    rcases List.mem_cons.mp hx with rfl | hx
    · exact le_trans h1 (min_le_right a x)
    · exact h2 x hx

theorem pymax_mem (values : List ℚ) (h : values ≠ []) : pymax values ∈ values := by
  cases values with
  | nil => exact absurd rfl h
  | cons b t =>
    rcases foldl_max_eq_or_mem t b with h1 | h1
    · rw [pymax, h1]; exact List.mem_cons_self b t
    · exact List.mem_cons_of_mem b h1

theorem pymax_is_ub (values : List ℚ) : ∀ x ∈ values, x ≤ pymax values := by
  cases values with
  | nil => intro x hx; simp at hx
  | cons b t =>
    intro x hx
    rcases List.mem_cons.mp hx with rfl | hx
    · exact (foldl_max_bounds t x).1
    · exact (foldl_max_bounds t b).2 x hx

theorem pymin_mem (values : List ℚ) (h : values ≠ []) : pymin values ∈ values := by
  cases values with
  | nil => exact absurd rfl h
  | cons b t =>
    rcases foldl_min_eq_or_mem t b with h1 | h1
    · rw [pymin, h1]; exact List.mem_cons_self b t
    · exact List.mem_cons_of_mem b h1

theorem pymin_is_lb (values : List ℚ) : ∀ x ∈ values, pymin values ≤ x := by
  cases values with
  | nil => intro x hx; simp at hx
  | cons b t =>
    intro x hx
    rcases List.mem_cons.mp hx with rfl | hx
    · exact (foldl_min_bounds t x).1
    · exact (foldl_min_bounds t b).2 x hx

theorem aggregate_results_all (values : List ℚ) (h : values ≠ []) :
    aggregate_results values "all" =
      [("avg", JsonVal.num (pymean values)),
       ("max", JsonVal.num (pymax values)),
       ("min", JsonVal.num (pymin values)),
       ("sum", JsonVal.num (pysum values)),
       ("count", JsonVal.num (values.length : ℚ)),
       ("values", JsonVal.arr (values.map JsonVal.num))] := by
  simp [aggregate_results, h]

theorem dictSet_of_not_mem {α : Type} (d : List (String × α)) (k : String) (v : α)
    (h : k ∉ d.map Prod.fst) : dictSet d k v = d ++ [(k, v)] := by
  have hk : hasKey d k = false := by
    rw [hasKey, List.any_eq_false]
    intro kv hkv
    simp only [beq_iff_eq]
    intro he
    exact h (List.mem_map.mpr ⟨kv, hkv, he⟩)
  rw [dictSet, hk]
  simp

theorem mem_keys_dictSet {α : Type} (d : List (String × α)) (k : String) (v : α)
    (x : String) (hx : x ∈ (dictSet d k v).map Prod.fst) :
    x ∈ d.map Prod.fst ∨ x = k := by
  rw [dictSet] at hx
  by_cases hk : hasKey d k
  · rw [if_pos hk] at hx
    rw [List.map_map, List.mem_map] at hx
    obtain ⟨kv, hmem, heq⟩ := hx
    by_cases h1 : kv.1 = k
    · right
      rw [← heq]
      simp [h1]
    · left
      rw [← heq]
      simp only [Function.comp_apply, if_neg h1]
      exact List.mem_map.mpr ⟨kv, hmem, rfl⟩
  · rw [if_neg hk, List.map_append] at hx
    rcases List.mem_append.mp hx with h | h
    · exact Or.inl h
    · right
      simpa using h

theorem mem_keys_dictAppend (d : List (String × List String)) (k v x : String)
    (hx : x ∈ (dictAppend d k v).map Prod.fst) :
    x ∈ d.map Prod.fst ∨ x = k := by
  rw [dictAppend] at hx
  by_cases hk : hasKey d k
  · rw [if_pos hk] at hx
    rw [List.map_map, List.mem_map] at hx
    obtain ⟨kv, hmem, heq⟩ := hx
    left
    refine List.mem_map.mpr ⟨kv, hmem, ?_⟩
    by_cases h1 : kv.1 = k
    · rw [← heq]; simp [h1]
    · rw [← heq]; simp [h1]
  · rw [if_neg hk, List.map_append] at hx
    rcases List.mem_append.mp hx with h | h
    · exact Or.inl h
    · right
      simpa using h

theorem applyPfx_loop (P : String) (l acc : List (String × JsonVal))
    (hdisj : ∀ kv ∈ l, renameKey P kv.1 ∉ acc.map Prod.fst)
    (hnd : (l.map (fun kv => renameKey P kv.1)).Nodup) :
    l.foldl (fun acc kv => dictSet acc (renameKey P kv.1) kv.2) acc
      = acc ++ l.map (fun kv => (renameKey P kv.1, kv.2)) := by
  induction l generalizing acc with
  | nil => simp
  | cons kv t ih =>
    rw [List.foldl_cons,
        dictSet_of_not_mem acc (renameKey P kv.1) kv.2
          (hdisj kv (List.mem_cons_self kv t))]
    rw [List.map_cons] at hnd
    obtain ⟨hnotin, hnd'⟩ := List.nodup_cons.mp hnd
    have hdisj' : ∀ kv' ∈ t,
        renameKey P kv'.1 ∉ (acc ++ [(renameKey P kv.1, kv.2)]).map Prod.fst := by
      intro kv' hkv'
      rw [List.map_append, List.mem_append]
      push_neg
      refine ⟨hdisj kv' (List.mem_cons_of_mem kv hkv'), ?_⟩
      simp only [List.map_cons, List.map_nil, List.mem_singleton]
      intro he
      exact hnotin (he ▸ List.mem_map.mpr ⟨kv', hkv', rfl⟩)
    rw [ih (acc ++ [(renameKey P kv.1, kv.2)]) hdisj' hnd']
    simp

/-- Invariant of the grouping loop: every stored flag key is the synthetic
positional key or a token of the argument vector, and the current flag is a
token of the argument vector. -/
def PdaInv (S : List String) (st : List (String × List String) × Option String) :
    Prop :=
  (∀ x ∈ st.1.map Prod.fst, x = "__positional__" ∨ x ∈ S) ∧
  (∀ f, st.2 = some f → f ∈ S)

theorem pdaStep_inv (S : List String) (st : List (String × List String) × Option String)
    (a : String) (ha : a ∈ S) (hst : PdaInv S st) : PdaInv S (pdaStep st a) := by
  obtain ⟨hkeys, hcur⟩ := hst
  rw [pdaStep]
  by_cases hdd : startsWithDashDash a
  · rw [if_pos hdd]
    refine ⟨?_, ?_⟩
    · intro x hx
      rcases mem_keys_dictSet st.1 a [] x hx with h | h
      · exact hkeys x h
      · exact Or.inr (h ▸ ha)
    · intro f hf
      cases hf
      exact ha
  · rw [if_neg hdd]
    cases hc : st.2 with
    | some f =>
      refine ⟨?_, ?_⟩
      · intro x hx
        rcases mem_keys_dictAppend st.1 f a x hx with h | h
        · exact hkeys x h
        · exact Or.inr (h ▸ hcur f hc)
      · intro f' hf'
        have hff : some f = some f' := hf'
        cases hff
        exact hcur f hc
    | none =>
      refine ⟨?_, ?_⟩
      · intro x hx
        rcases mem_keys_dictAppend st.1 "__positional__" a x hx with h | h
        · exact hkeys x h
        · exact Or.inl h
      · intro f' hf'
        cases (show (none : Option String) = some f' from hf')

theorem pda_foldl_inv (S l : List String) (hl : ∀ a ∈ l, a ∈ S)
    (st : List (String × List String) × Option String) (hst : PdaInv S st) :
    PdaInv S (l.foldl pdaStep st) := by
  induction l generalizing st with
  | nil => exact hst
  | cons a t ih =>
    rw [List.foldl_cons]
    exact ih (fun b hb => hl b (List.mem_cons_of_mem a hb))
      (pdaStep st a) (pdaStep_inv S st a (hl a (List.mem_cons_self a t)) hst)

theorem pda_keys (argv : List String) :
    ∀ x ∈ (parse_dynamic_args argv).map Prod.fst,
      x = "__positional__" ∨ x ∈ argv := by
  have h := pda_foldl_inv argv argv (fun a ha => ha) ([], none)
    ⟨by simp, by simp⟩
  exact h.1

theorem paStep_output_dir (a : Args) (kv : String × List String)
    (h : kv.1 ≠ "--output_dir") : (paStep a kv).output_dir = a.output_dir := by
  rcases kv with ⟨flag, values⟩
  simp only at h
  simp only [paStep]
  split_ifs
  all_goals try rfl
  rcases values with _ | ⟨v, vs⟩
  · rfl
  · dsimp only
    split_ifs <;> rfl

theorem foldl_paStep_output_dir (l : List (String × List String)) (a : Args)
    (h : ∀ kv ∈ l, kv.1 ≠ "--output_dir") :
    (l.foldl paStep a).output_dir = a.output_dir := by
  induction l generalizing a with
  | nil => rfl
  | cons kv t ih =>
    rw [List.foldl_cons,
        ih (paStep a kv) (fun kv' h' => h kv' (List.mem_cons_of_mem kv h')),
        paStep_output_dir a kv (h kv (List.mem_cons_self kv t))]

/-! ### Claim theorems -/

/-- C1: for every non-empty list of valid numeric values aggregated in mode
"all", the aggregate result maps count to the number of values, values to
exactly those numbers in discovery order, avg to the arithmetic mean (sum
divided by count), sum to the total, and max/min to a member of the list
that bounds it from above/below under the standard numeric order. -/
theorem C1_aggregate_all_statistics (values : List ℚ) (h : values ≠ []) :
    jlookup (aggregate_results values "all") "count"
      = some (JsonVal.num (values.length : ℚ)) ∧
    jlookup (aggregate_results values "all") "values"
      = some (JsonVal.arr (values.map JsonVal.num)) ∧
    jlookup (aggregate_results values "all") "avg"
      = some (JsonVal.num (values.sum / (values.length : ℚ))) ∧
    jlookup (aggregate_results values "all") "sum"
      = some (JsonVal.num values.sum) ∧
    jlookup (aggregate_results values "all") "max"
      = some (JsonVal.num (pymax values)) ∧
    pymax values ∈ values ∧ (∀ x ∈ values, x ≤ pymax values) ∧
    jlookup (aggregate_results values "all") "min"
      = some (JsonVal.num (pymin values)) ∧
    pymin values ∈ values ∧ (∀ x ∈ values, pymin values ≤ x) := by
  have e := aggregate_results_all values h
  refine ⟨?_, ?_, ?_, ?_, ?_, pymax_mem values h, pymax_is_ub values, ?_,
    pymin_mem values h, pymin_is_lb values⟩ <;>
    simp [e, jlookup, pymean, pysum_eq_sum]

theorem C1_aggregate_all_statistics_witness :
    (([(10.5 : ℚ), 15.2, 8.7, 12.1, 20.0] : List ℚ) ≠ []) ∧
    jlookup (aggregate_results [(10.5 : ℚ), 15.2, 8.7, 12.1, 20.0] "all") "count"
      = some (JsonVal.num 5) ∧
    jlookup (aggregate_results [(10.5 : ℚ), 15.2, 8.7, 12.1, 20.0] "all") "avg"
      = some (JsonVal.num 13.3) ∧
    jlookup (aggregate_results [(10.5 : ℚ), 15.2, 8.7, 12.1, 20.0] "all") "max"
      = some (JsonVal.num 20) ∧
    jlookup (aggregate_results [(10.5 : ℚ), 15.2, 8.7, 12.1, 20.0] "all") "min"
      = some (JsonVal.num 8.7) ∧
    jlookup (aggregate_results [(10.5 : ℚ), 15.2, 8.7, 12.1, 20.0] "all") "sum"
      = some (JsonVal.num 66.5) := by
  obtain ⟨hcount, hvalues, havg, hsum, hmax, -, -, hmin, -, -⟩ :=
    C1_aggregate_all_statistics [(10.5 : ℚ), 15.2, 8.7, 12.1, 20.0] (by simp)
  refine ⟨by simp, ?_, ?_, ?_, ?_, ?_⟩
  · simpa using hcount
  · rw [havg]; norm_num
  · rw [hmax]; norm_num [pymax, max_def]
  · rw [hmin]; norm_num [pymin, min_def]
  · rw [hsum]; norm_num

/-- C2: a readable JSON object with a non-null top-level error field makes
the record extractor return the "NA" sentinel regardless of the metric
key's presence or value, the file's detail entry records "NA", and the
file contributes nothing to the extracted values list. -/
theorem C2_error_field_excludes (metric_key path : String)
    (kvs : List (String × JsonVal)) (v : JsonVal)
    (hv : jlookup kvs "error" = some v) (hnn : v ≠ JsonVal.null) :
    load_result_from_file (FileData.obj kvs) metric_key = JsonVal.str "NA" ∧
    processFile metric_key (path, FileData.obj kvs)
      = (none, JsonVal.obj [("file", JsonVal.str path), ("value", JsonVal.str "NA")]) ∧
    ∀ pre post, extractValues metric_key (pre ++ (path, FileData.obj kvs) :: post)
      = extractValues metric_key (pre ++ post) := by
  have herr := errNonNull_true kvs v hv hnn
  have hload : load_result_from_file (FileData.obj kvs) metric_key
      = JsonVal.str "NA" := by
    simp [load_result_from_file, herr]
  have hpf : processFile metric_key (path, FileData.obj kvs)
      = (none, JsonVal.obj [("file", JsonVal.str path), ("value", JsonVal.str "NA")]) := by
    simp [processFile, hload, isNA]
  refine ⟨hload, hpf, ?_⟩
  intro pre post
  simp [extractValues, hpf]

theorem C2_error_field_excludes_witness :
    load_result_from_file
      (FileData.obj [("error", JsonVal.str "boom"), ("result", JsonVal.num 5)])
      "result" = JsonVal.str "NA" ∧
    extractValues "result"
      [("f.json", FileData.obj [("error", JsonVal.str "boom"), ("result", JsonVal.num 5)])]
      = [] := by
  have h := C2_error_field_excludes "result" "f.json"
    [("error", JsonVal.str "boom"), ("result", JsonVal.num 5)]
    (JsonVal.str "boom") rfl (fun he => JsonVal.noConfusion he)
  exact ⟨h.1, by simpa [extractValues] using h.2.2 [] []⟩

/-- C10: when the metric field's value is exactly the string "NA" (and no
error field interferes), the extractor's return is the not-available
sentinel itself: the value is excluded from the values list and the detail
entry is the tag-less "NA" entry, identical to that of a file missing the
metric key. -/
theorem C10_na_string_indistinguishable (metric_key path : String)
    (kvs : List (String × JsonVal))
    (herr : jlookup kvs "error" = none ∨ jlookup kvs "error" = some JsonVal.null)
    (hk : jlookup kvs metric_key = some (JsonVal.str "NA")) :
    load_result_from_file (FileData.obj kvs) metric_key = JsonVal.str "NA" ∧
    processFile metric_key (path, FileData.obj kvs)
      = (none, JsonVal.obj [("file", JsonVal.str path), ("value", JsonVal.str "NA")]) ∧
    extractValues metric_key [(path, FileData.obj kvs)] = [] ∧
    processFile metric_key (path, FileData.obj kvs)
      = processFile metric_key (path, FileData.obj []) := by
  have herrf := errNonNull_false kvs herr
  have hload : load_result_from_file (FileData.obj kvs) metric_key
      = JsonVal.str "NA" := by
    simp [load_result_from_file, herrf, hk]
  have hpf : processFile metric_key (path, FileData.obj kvs)
      = (none, JsonVal.obj [("file", JsonVal.str path), ("value", JsonVal.str "NA")]) := by
    simp [processFile, hload, isNA]
  refine ⟨hload, hpf, by simp [extractValues, hpf], ?_⟩
  rw [hpf]
  rfl

theorem C10_na_string_indistinguishable_witness :
    load_result_from_file (FileData.obj [("result", JsonVal.str "NA")]) "result"
      = JsonVal.str "NA" ∧
    extractValues "result" [("f.json", FileData.obj [("result", JsonVal.str "NA")])]
      = [] ∧
    processFile "result" ("f.json", FileData.obj [("result", JsonVal.str "NA")])
      = processFile "result" ("f.json", FileData.obj []) := by
  have h := C10_na_string_indistinguishable "result" "f.json"
    [("result", JsonVal.str "NA")] (Or.inl rfl) rfl
  exact ⟨h.1, h.2.2.1, h.2.2.2⟩

/-- C8 counterexample: three different not-available sub-kinds (metric key
missing, upstream error field set, unreadable file) produce the same
tag-less detail entry, so the detail list does not carry a reason tag
distinguishing the four sub-kinds; only the non-numeric case is tagged. -/
theorem C8_counterexample_no_distinguishing_tag :
    (processFile "result" ("a.json", FileData.obj [("other", JsonVal.num 1)])).2
      = JsonVal.obj [("file", JsonVal.str "a.json"), ("value", JsonVal.str "NA")] ∧
    (processFile "result" ("a.json", FileData.obj [("error", JsonVal.str "boom")])).2
      = JsonVal.obj [("file", JsonVal.str "a.json"), ("value", JsonVal.str "NA")] ∧
    (processFile "result" ("a.json", FileData.unreadable)).2
      = JsonVal.obj [("file", JsonVal.str "a.json"), ("value", JsonVal.str "NA")] ∧
    jlookup [("file", JsonVal.str "a.json"), ("value", JsonVal.str "NA")] "error"
      = none :=
  ⟨rfl, rfl, rfl, rfl⟩

/-- C8 amended: every file that is missing the metric key, or whose metric
value fails the numeric conversion, is excluded from the values list and
its detail entry records value "NA"; the entry carries the reason tag
"non-numeric" exactly in the failed-conversion case, while the missing-key
case (like the unreadable case) produces the tag-less "NA" entry. -/
theorem C8_exclusion_and_tagging (metric_key path : String)
    (kvs : List (String × JsonVal)) (v : JsonVal)
    (herr : jlookup kvs "error" = none ∨ jlookup kvs "error" = some JsonVal.null) :
    (jlookup kvs metric_key = none →
      processFile metric_key (path, FileData.obj kvs)
        = (none, JsonVal.obj [("file", JsonVal.str path), ("value", JsonVal.str "NA")])) ∧
    (jlookup kvs metric_key = some v → isNA v = false → pyFloat v = none →
      processFile metric_key (path, FileData.obj kvs)
        = (none, JsonVal.obj [("file", JsonVal.str path), ("value", JsonVal.str "NA"),
                              ("error", JsonVal.str "non-numeric")])) ∧
    processFile metric_key (path, FileData.unreadable)
      = (none, JsonVal.obj [("file", JsonVal.str path), ("value", JsonVal.str "NA")]) := by
  have herrf := errNonNull_false kvs herr
  refine ⟨?_, ?_, rfl⟩
  · intro hmiss
    have hload : load_result_from_file (FileData.obj kvs) metric_key
        = JsonVal.str "NA" := by
      simp [load_result_from_file, herrf, hmiss]
    simp [processFile, hload, isNA]
  · intro hk hna hfloat
    have hload : load_result_from_file (FileData.obj kvs) metric_key = v := by
      simp [load_result_from_file, herrf, hk]
    simp [processFile, hload, hna, hfloat]

theorem C8_exclusion_and_tagging_witness :
    processFile "result" ("f.json", FileData.obj [("result", JsonVal.null)])
      = (none, JsonVal.obj [("file", JsonVal.str "f.json"), ("value", JsonVal.str "NA"),
                            ("error", JsonVal.str "non-numeric")]) ∧
    processFile "result" ("g.json", FileData.obj [("x", JsonVal.num 1)])
      = (none, JsonVal.obj [("file", JsonVal.str "g.json"), ("value", JsonVal.str "NA")]) :=
  ⟨(C8_exclusion_and_tagging "result" "f.json" [("result", JsonVal.null)]
      JsonVal.null (Or.inl rfl)).2.1 rfl rfl rfl,
   (C8_exclusion_and_tagging "result" "g.json" [("x", JsonVal.num 1)]
      JsonVal.null (Or.inl rfl)).1 rfl⟩

/-- C3: when parsing succeeds and file discovery yields zero matching
files, the run exits with code 1 and still writes metrics.json (after
creating the output directory and writing cli.txt), containing exactly the
keys error, pattern_used and search_directory, where the error message
ends with the pattern used; the model is a total function, so no exception
escapes. -/
theorem C3_no_files_error_result (argv : List String)
    (fs : String → List (String × FileData)) (cwd : String) (a : Args)
    (hp : parse_args argv = Except.ok a) (hf : fs a.input_pattern = []) :
    (runProgram argv fs cwd = ⟨1, true, true,
      some [("error",
             JsonVal.str ("No data files found with pattern: " ++ a.input_pattern)),
            ("pattern_used", JsonVal.str a.input_pattern),
            ("search_directory", JsonVal.str cwd)]⟩) ∧
    ∃ s, "No data files found with pattern: " ++ a.input_pattern
      = s ++ a.input_pattern := by
  refine ⟨?_, ⟨"No data files found with pattern: ", rfl⟩⟩
  simp [runProgram, hp, hf, runMain]

theorem C3_no_files_error_result_witness :
    runProgram ["--output_dir", "out"] (fun _ => []) "/w"
      = ⟨1, true, true,
        some [("error", JsonVal.str "No data files found with pattern: **/*_data.json"),
              ("pattern_used", JsonVal.str "**/*_data.json"),
              ("search_directory", JsonVal.str "/w")]⟩ :=
  (C3_no_files_error_result ["--output_dir", "out"] (fun _ => []) "/w"
    { output_dir := some "out" } rfl rfl).1

/-- C4 counterexample: with one discovered file that degrades to
not-available, the run exits 0 but metrics.json does not contain only the
error entry: the five metadata keys are present alongside it. -/
theorem C4_counterexample_metadata_present :
    (runMain { output_dir := some "o" } "/cwd"
        [("f.json", FileData.obj [("error", JsonVal.str "x")])]).1 = 0 ∧
    (runMain { output_dir := some "o" } "/cwd"
        [("f.json", FileData.obj [("error", JsonVal.str "x")])]).2.map Prod.fst
      = ["aggregation_type", "metric_key", "input_pattern", "files_processed",
         "files_details", "error"] ∧
    (runMain { output_dir := some "o" } "/cwd"
        [("f.json", FileData.obj [("error", JsonVal.str "x")])]).2.map Prod.fst
      ≠ ["error"] :=
  ⟨rfl, rfl, by decide⟩

/-- C4 amended: when at least one file is discovered but every discovered
file degrades to not-available (no key prefix configured), the run exits
with code 0 and metrics.json holds the five metadata keys plus the single
error entry "No valid values found", and none of the statistic keys avg,
max, min, sum, count or values is present. -/
theorem C4_all_na_exit_zero_error_aggregate (a : Args) (cwd : String)
    (files : List (String × FileData)) (hpfx : a.pfx = "") (hne : files ≠ [])
    (hempty : extractValues a.metric_key files = []) :
    runMain a cwd files = (0,
      [("aggregation_type", JsonVal.str a.aggregation),
       ("metric_key", JsonVal.str a.metric_key),
       ("input_pattern", JsonVal.str a.input_pattern),
       ("files_processed", JsonVal.num ((fileDetails a.metric_key files).length : ℚ)),
       ("files_details", JsonVal.arr (fileDetails a.metric_key files)),
       ("error", JsonVal.str "No valid values found")]) ∧
    ∀ k, k ∈ ["avg", "max", "min", "sum", "count", "values"] →
      jlookup (runMain a cwd files).2 k = none := by
  obtain ⟨f0, t0, rfl⟩ := List.exists_cons_of_ne_nil hne
  have hrm : runMain a cwd (f0 :: t0) = (0,
      [("aggregation_type", JsonVal.str a.aggregation),
       ("metric_key", JsonVal.str a.metric_key),
       ("input_pattern", JsonVal.str a.input_pattern),
       ("files_processed", JsonVal.num ((fileDetails a.metric_key (f0 :: t0)).length : ℚ)),
       ("files_details", JsonVal.arr (fileDetails a.metric_key (f0 :: t0))),
       ("error", JsonVal.str "No valid values found")]) := by
    simp [runMain, hempty, aggregate_results, applyPfx, hpfx]
  refine ⟨hrm, ?_⟩
  intro k hk
  rw [hrm]
  fin_cases hk <;> simp [jlookup]

theorem C4_all_na_exit_zero_error_aggregate_witness :
    runMain { output_dir := some "o" } "/cwd"
        [("f.json", FileData.obj [("error", JsonVal.str "x")])]
      = (0,
        [("aggregation_type", JsonVal.str "all"),
         ("metric_key", JsonVal.str "result"),
         ("input_pattern", JsonVal.str "**/*_data.json"),
         ("files_processed", JsonVal.num 1),
         ("files_details", JsonVal.arr
           [JsonVal.obj [("file", JsonVal.str "f.json"), ("value", JsonVal.str "NA")]]),
         ("error", JsonVal.str "No valid values found")]) := by
  have h := (C4_all_na_exit_zero_error_aggregate { output_dir := some "o" } "/cwd"
    [("f.json", FileData.obj [("error", JsonVal.str "x")])]
    rfl (List.cons_ne_nil _ _) rfl).1
  simpa [fileDetails, processFile, load_result_from_file, errNonNull, jlookup, isNA]
    using h

/-- C5: with a configured non-empty key prefix, the result-writing step
renames every key of the merged result except files_details,
input_pattern, metric_key and aggregation_type to prefix_key, keeping
those four keys unprefixed and preserving every key's associated value
(stated under distinctness of the renamed keys, which holds for the
mapping main builds). -/
theorem C5_prefix_renaming (P : String) (result : List (String × JsonVal))
    (hP : P ≠ "")
    (hnd : (result.map (fun kv => renameKey P kv.1)).Nodup) :
    applyPfx P result = result.map (fun kv =>
      (if kv.1 ∈ exemptKeys then kv.1 else P ++ "_" ++ kv.1, kv.2)) := by
  rw [applyPfx, if_neg hP, applyPfx_loop P result [] (by simp) hnd]
  simp [renameKey]

theorem C5_prefix_renaming_witness :
    applyPfx "test"
      [("aggregation_type", JsonVal.str "avg"), ("metric_key", JsonVal.str "result"),
       ("input_pattern", JsonVal.str "p"), ("files_processed", JsonVal.num 5),
       ("files_details", JsonVal.arr []), ("avg", JsonVal.num 13.3),
       ("count", JsonVal.num 5)]
      = [("aggregation_type", JsonVal.str "avg"), ("metric_key", JsonVal.str "result"),
         ("input_pattern", JsonVal.str "p"), ("test_files_processed", JsonVal.num 5),
         ("files_details", JsonVal.arr []), ("test_avg", JsonVal.num 13.3),
         ("test_count", JsonVal.num 5)] := by
  rw [C5_prefix_renaming "test"
    [("aggregation_type", JsonVal.str "avg"), ("metric_key", JsonVal.str "result"),
     ("input_pattern", JsonVal.str "p"), ("files_processed", JsonVal.num 5),
     ("files_details", JsonVal.arr []), ("avg", JsonVal.num 13.3),
     ("count", JsonVal.num 5)] (by decide) (by decide)]
  rfl

/-- C9: when no output directory value is provided — the flag token does
not occur in the argument vector at all, or the resolved output directory
of the parse is falsy (unset because the flag carried no value, or the
empty string) — parsing fails and the process exits with status 1 before
any side effect: the output directory is not created and neither
metrics.json nor cli.txt is written. -/
theorem C9_no_output_dir_value_no_side_effects (argv : List String)
    (fs : String → List (String × FileData)) (cwd : String)
    (h : "--output_dir" ∉ argv ∨
      ((parse_dynamic_args argv).foldl paStep {}).output_dir = none ∨
      ((parse_dynamic_args argv).foldl paStep {}).output_dir = some "") :
    runProgram argv fs cwd = ⟨1, false, false, none⟩ := by
  have hfalsy : ((parse_dynamic_args argv).foldl paStep {}).output_dir = none ∨
      ((parse_dynamic_args argv).foldl paStep {}).output_dir = some "" := by
    rcases h with h | h
    · left
      rw [foldl_paStep_output_dir]
      intro kv hkv heq
      rcases pda_keys argv kv.1 (List.mem_map.mpr ⟨kv, hkv, rfl⟩) with hpos | hmem
      · rw [heq] at hpos
        exact absurd hpos (by decide)
      · rw [heq] at hmem
        exact h hmem
    · exact h
  have hp : parse_args argv = Except.error "Error: --output_dir is required" := by
    rcases hfalsy with h1 | h1 <;> simp [parse_args, h1]
  simp [runProgram, hp]

theorem C9_no_output_dir_value_no_side_effects_witness :
    runProgram ["--debug"] (fun _ => []) "/w" = ⟨1, false, false, none⟩ ∧
    runProgram ["--output_dir"] (fun _ => []) "/w" = ⟨1, false, false, none⟩ ∧
    runProgram ["--output_dir", "--debug"] (fun _ => []) "/w"
      = ⟨1, false, false, none⟩ :=
  ⟨C9_no_output_dir_value_no_side_effects ["--debug"] (fun _ => []) "/w"
     (Or.inl (by decide)),
   C9_no_output_dir_value_no_side_effects ["--output_dir"] (fun _ => []) "/w"
     (Or.inr (Or.inl rfl)),
   C9_no_output_dir_value_no_side_effects ["--output_dir", "--debug"] (fun _ => []) "/w"
     (Or.inr (Or.inl rfl))⟩

/-- C6 (code bug): the parsed extra list keeps only the values of the last
occurrence of the repeated extra flag: the grouping pass resets a repeated
flag's value list, so the values of earlier occurrences are lost before
the accumulating extend ever sees them. -/
theorem C6_repeated_extra_last_occurrence_wins :
    parsedExtra ["--extra", "a", "b", "--extra", "c", "--output_dir", "o"]
      = some ["c"] ∧
    parsedExtra ["--extra", "a", "b", "--extra", "c", "--output_dir", "o"]
      ≠ some ["a", "b", "c"] :=
  ⟨rfl, by decide⟩

/-- C7 (code bug): an unrecognized flag's values are stored under the raw
flag token, leading dashes and hyphens included; nothing is stored under
the normalized name (dashes stripped, hyphens to underscores) that the
source computes and never uses. -/
theorem C7_dynamic_args_keyed_by_raw_flag :
    parsedDynamic ["--foo-bar", "x", "--output_dir", "o"]
      = some [("--foo-bar", ["x"])] ∧
    jlookup [("--foo-bar", ["x"])] "foo_bar" = none ∧
    jlookup [("--foo-bar", ["x"])] "--foo-bar" = some ["x"] :=
  ⟨rfl, rfl, rfl⟩

end DummyCollector
